import Mathlib

set_option maxRecDepth 8192
set_option exponentiation.threshold 1200

/-!
Shallow embedding of the deterministic extraction engine of the
finance-tracker-bot repository (src/utils.py, src/ai_processor.py,
src/vision_processor.py).

Strings are modelled as Lean `String`/`List Char`; Python regex scans are
transliterated into explicit character-list scanners that reproduce
`re.search`/`re.findall` semantics (leftmost match, greedy quantifiers) for
the concrete patterns appearing in the source.  Python's `str.lower`,
`str.strip`, `\s`, `\w` and `\d` are modelled over ASCII, which covers every
keyword and pattern the source uses.  Python integers are `Nat`; where the
source converts an integer to a float (`float(...)`) the conversion is
modelled exactly for values below 2^53 and as an uncaught `OverflowError`
(`Option.none`) for values at or above 2^1024 - 2^970, the CPython
round-half-even overflow threshold for `float(int)`.
-/

/-- ASCII digit test, modelling the regex class `\d` for ASCII input. -/
def isDigitCh (c : Char) : Bool := '0' ≤ c && c ≤ '9'

/-- ASCII whitespace test, modelling the regex class `\s` for ASCII input. -/
def isSpaceCh (c : Char) : Bool :=
  c = ' ' || c = '\t' || c = '\n' || c = '\r' || c = '\x0b' || c = '\x0c'

/-- Word-character test, modelling the regex class `\w` for ASCII input. -/
def isWordCh (c : Char) : Bool := c.isAlphanum || c = '_'

/-- Lowercase an ASCII character, modelling `str.lower` for ASCII input. -/
def lowerCh (c : Char) : Char :=
  if 'A' ≤ c && c ≤ 'Z' then Char.ofNat (c.toNat + 32) else c

/-- Model of Python `str.lower` (ASCII portion). -/
def pyLower (l : List Char) : List Char := l.map lowerCh

/-- Model of Python `str.strip` (ASCII whitespace). -/
def pyStrip (l : List Char) : List Char :=
  ((l.dropWhile isSpaceCh).reverse.dropWhile isSpaceCh).reverse

/-- `needle` is a prefix of `hay` (character lists). -/
def startsWith : List Char → List Char → Bool
  | [], _ => true
  | _ :: _, [] => false
  | a :: as, b :: bs => a == b && startsWith as bs

/-- Model of Python's substring test `needle in hay`. -/
def containsSub (hay needle : List Char) : Bool :=
  match hay with
  | [] => needle.isEmpty
  | _ :: t => startsWith needle hay || containsSub t needle

/-- Substring test on `String`s, needle given as a string literal. -/
def strHas (hay : List Char) (needle : String) : Bool := containsSub hay needle.toList

/-- `any(word in hay for word in kws)` over a keyword list. -/
def anyKeywordIn (hay : List Char) (kws : List String) : Bool :=
  kws.any (fun k => strHas hay k)

/-- Number of keywords of `kws` occurring as substrings of `hay`
(`sum(1 for keyword in keywords if keyword in combined_text)`). -/
def countHits (hay : List Char) (kws : List String) : Nat :=
  (kws.filter (fun k => strHas hay k)).length

/-- Numeric value of a run of ASCII digits (Python `int` of a digit string). -/
def digitsToNat (ds : List Char) : Nat :=
  ds.foldl (fun acc c => 10 * acc + (c.toNat - 48)) 0

/-- Split off the maximal leading digit run (greedy `\d+`). -/
def takeDigits (l : List Char) : List Char × List Char :=
  match l with
  | [] => ([], [])
  | c :: t =>
    if isDigitCh c then
      let (ds, rest) := takeDigits t
      (c :: ds, rest)
    else ([], l)

/-- Split off at most `n` leading digits (a bounded greedy digit group). -/
def takeDigitsUpTo : Nat → List Char → List Char × List Char
  | 0, l => ([], l)
  | _ + 1, [] => ([], [])
  | n + 1, c :: r =>
    if isDigitCh c then
      let (ds, rest) := takeDigitsUpTo n r
      (c :: ds, rest)
    else ([], c :: r)

/-- Try a position-anchored matcher at every position, leftmost first
(`re.search` semantics). -/
def scanPos (f : List Char → Option α) : List Char → Option α
  | [] => f []
  | l@(_ :: t) =>
    match f l with
    | some a => some a
    | none => scanPos f t

/-- Like `scanPos` but the matcher also sees the previous character,
as needed for the word-boundary assertion `\b`. -/
def scanPosB (f : Option Char → List Char → Option α) :
    Option Char → List Char → Option α
  | prev, [] => f prev []
  | prev, l@(c :: t) =>
    match f prev l with
    | some a => some a
    | none => scanPosB f (some c) t

/-- A `\b` boundary holds before a word character iff the previous character
is absent or not a word character. -/
def boundaryBefore (prev : Option Char) : Bool :=
  match prev with
  | none => true
  | some c => !isWordCh c

/-- A `\b` boundary holds after a word character iff the next character is
absent or not a word character. -/
def boundaryAfter (l : List Char) : Bool :=
  match l with
  | [] => true
  | c :: _ => !isWordCh c

/-- CPython `float(int)`: exact for small values, `OverflowError` (modelled
as `none`) for values at or above `2 ^ 1024 - 2 ^ 970`. -/
def pyFloat (n : Nat) : Option Nat :=
  if 2 ^ 1024 - 2 ^ 970 ≤ n then none else some n

/-! ## Dates

Model of the parts of `datetime` the engine uses: a timezone-naive date
(the time-of-day component never influences any output of the engine, since
`replace` preserves it and every comparison compares dates with identical
times). -/

structure PyDate where
  year : Nat
  month : Nat
  day : Nat
deriving DecidableEq

/-- Gregorian leap-year rule (`calendar.isleap`). -/
def isLeap (y : Nat) : Bool := (y % 4 = 0 && y % 100 ≠ 0) || y % 400 = 0

/-- Days in a month of a given year. -/
def daysInMonth (y m : Nat) : Nat :=
  if m = 2 then (if isLeap y then 29 else 28)
  else if m = 4 || m = 6 || m = 9 || m = 11 then 30
  else 31

/-- The calendar day before `d` (used for `timedelta` subtraction). -/
def prevDay (d : PyDate) : PyDate :=
  if 1 < d.day then ⟨d.year, d.month, d.day - 1⟩
  else if 1 < d.month then ⟨d.year, d.month - 1, daysInMonth d.year (d.month - 1)⟩
  else ⟨d.year - 1, 12, 31⟩

/-- The calendar day after `d` (used for `timedelta` addition). -/
def nextDay (d : PyDate) : PyDate :=
  if d.day < daysInMonth d.year d.month then ⟨d.year, d.month, d.day + 1⟩
  else if d.month < 12 then ⟨d.year, d.month + 1, 1⟩
  else ⟨d.year + 1, 1, 1⟩

/-- `d - timedelta(days=n)`. -/
def subDays (d : PyDate) : Nat → PyDate
  | 0 => d
  | n + 1 => prevDay (subDays d n)

/-- `d + timedelta(days=n)`. -/
def addDays (d : PyDate) : Nat → PyDate
  | 0 => d
  | n + 1 => nextDay (addDays d n)

/-- Days before January 1 of year `y` since the epoch 0001-01-01. -/
def daysBeforeYear (y : Nat) : Nat :=
  365 * (y - 1) + (y - 1) / 4 - (y - 1) / 100 + (y - 1) / 400

/-- Days of year `y` that precede month `m`. -/
def daysBeforeMonth (y m : Nat) : Nat :=
  (List.range (m - 1)).foldl (fun acc i => acc + daysInMonth y (i + 1)) 0

/-- Python `date.toordinal`: 0001-01-01 is day 1. -/
def toOrdinal (d : PyDate) : Nat := daysBeforeYear d.year + daysBeforeMonth d.year d.month + d.day

/-- Python `date.weekday`: Monday = 0 … Sunday = 6. -/
def pyWeekday (d : PyDate) : Nat := (toOrdinal d - 1) % 7

/-- Decimal digits of `n`, padded on the left with zeros to width `w`
(the `%0wd` format). -/
def padNum (w n : Nat) : String :=
  let s := toString n
  String.mk (List.replicate (w - s.length) '0') ++ s

/-- `strftime('%Y-%m-%d')`, and the `f"{year:04d}-{month:02d}-{day:02d}"`
format used by the explicit-date branch. -/
def formatYMD (y m d : Nat) : String :=
  padNum 4 y ++ "-" ++ padNum 2 m ++ "-" ++ padNum 2 d

/-- `d.strftime('%Y-%m-%d')`. -/
def fmtDate (d : PyDate) : String := formatYMD d.year d.month d.day

/-- Lexicographic date comparison (`datetime.__lt__` at equal times). -/
def dateLt (a b : PyDate) : Bool :=
  a.year < b.year || (a.year = b.year &&
    (a.month < b.month || (a.month = b.month && a.day < b.day)))

/-- `datetime.replace(month=m, day=d)`: `ValueError` (modelled `none`)
when the month or the day is out of range for the (unchanged) year. -/
def replaceMD (base : PyDate) (m d : Nat) : Option PyDate :=
  if 1 ≤ m && m ≤ 12 && 1 ≤ d && d ≤ daysInMonth base.year m then
    some ⟨base.year, m, d⟩
  else none

/-- `datetime.replace(day=d)`. -/
def replaceDayF (base : PyDate) (d : Nat) : Option PyDate :=
  if 1 ≤ d && d ≤ daysInMonth base.year base.month then
    some ⟨base.year, base.month, d⟩
  else none

/-- `datetime.replace(month=m)`. -/
def replaceMonthF (base : PyDate) (m : Nat) : Option PyDate :=
  if 1 ≤ m && m ≤ 12 && base.day ≤ daysInMonth base.year m then
    some ⟨base.year, m, base.day⟩
  else none

/-- `datetime.replace(year=y)`: `ValueError` outside `MINYEAR..MAXYEAR` or
when February 29 does not exist in the new year. -/
def replaceYearF (base : PyDate) (y : Nat) : Option PyDate :=
  if 1 ≤ y && y ≤ 9999 && base.day ≤ daysInMonth y base.month then
    some ⟨y, base.month, base.day⟩
  else none

/-! ## Amount Normalizer (`src/utils.py`, `AmountUtils.parse_indonesian_amount`)

The five patterns are tried in order on `text.lower().strip()`; the first
pattern whose converter succeeds wins.  `int(match.group(1))` cannot fail on
a digit run, but pattern 3's alternation `(\d+)\s*jt|juta` can match via the
bare alternative `juta`, leaving `group(1) = None`, so `int(None)` raises
`TypeError`, which the `except (ValueError, TypeError)` clause turns into a
fall-through to the next pattern.  The final `float(...)` call can raise
`OverflowError`, which that clause does NOT catch (modelled as `none`). -/

/-- Matcher for `(\d+)\s*(?:ribu|rb)` anchored at a position: a greedy digit
run, greedy whitespace, then `ribu` or `rb`.  Backtracking never helps here:
any shorter digit run is followed by a digit, and any shorter whitespace run
is followed by a whitespace character, neither of which can start `ribu`. -/
def ribuAt (l : List Char) : Option (List Char) :=
  let (ds, rest) := takeDigits l
  if ds.isEmpty then none
  else
    let rest2 := rest.dropWhile isSpaceCh
    if startsWith "ribu".toList rest2 || startsWith "rb".toList rest2 then some ds
    else none

/-- Matcher for `(\d+)\s*k(?:\s|$)` anchored at a position. -/
def kiloAt (l : List Char) : Option (List Char) :=
  let (ds, rest) := takeDigits l
  if ds.isEmpty then none
  else
    let rest2 := rest.dropWhile isSpaceCh
    match rest2 with
    | 'k' :: r =>
      match r with
      | [] => some ds
      | c :: _ => if isSpaceCh c then some ds else none
    | _ => none

/-- Matcher for `(\d+)\s*jt|juta` anchored at a position.  The alternation
is at top level: the first alternative yields the digit group, the second
(`juta`) matches with no group (`some none`). -/
def jutaAt (l : List Char) : Option (Option (List Char)) :=
  let (ds, rest) := takeDigits l
  let alt1 : Option (Option (List Char)) :=
    if ds.isEmpty then none
    else
      let rest2 := rest.dropWhile isSpaceCh
      if startsWith "jt".toList rest2 then some (some ds) else none
  match alt1 with
  | some r => some r
  | none => if startsWith "juta".toList l then some none else none

/-- Matcher for `(\d+)(?:[.,]\d{3})*` (and for the identical-in-effect
final pattern `(\d+)`): group 1 is only the leading digit run — the
separator groups are non-capturing and excluded from it. -/
def bareDigitsAt (l : List Char) : Option (List Char) :=
  let (ds, _) := takeDigits l
  if ds.isEmpty then none else some ds

/-- `AmountUtils.parse_indonesian_amount`.  Result `none` models an uncaught
exception (`OverflowError` from `float`); `some n` models the returned float,
exact for `n < 2 ^ 53`.  The converter of pattern 4 strips `[.,]` from
group 1, which contains no separators, hence the plain `digitsToNat`. -/
def parse_indonesian_amount (text : String) : Option Nat :=
  let t := pyStrip (pyLower text.toList)
  match scanPos ribuAt t with
  | some ds => pyFloat (digitsToNat ds * 1000)
  | none =>
  match scanPos kiloAt t with
  | some ds => pyFloat (digitsToNat ds * 1000)
  | none =>
  match scanPos jutaAt t with
  | some (some ds) => pyFloat (digitsToNat ds * 1000000)
  | _ =>
  match scanPos bareDigitsAt t with
  | some ds => pyFloat (digitsToNat (ds.filter (fun c => !(c = '.' || c = ','))))
  | none =>
  match scanPos bareDigitsAt t with
  | some ds => pyFloat (digitsToNat ds)
  | none => some 0

/-! ## Date Resolver (`src/ai_processor.py`, `AIProcessor._determine_transaction_date`)

The function is a first-match-wins cascade over `text.lower().strip()`.
Each stage is embedded as a function returning `Option String`; a stage
whose handler does not `return` (regex miss, range-check failure, or a
`ValueError` swallowed by the `try/except`) yields `none`. -/

/-- Stage 1: explicit relative keywords, in source order
(yesterday, day-before-yesterday, tomorrow).  The day-before-yesterday
phrases all contain the substring `kemarin`, so the yesterday branch
shadows them. -/
def relativeStep (t : List Char) (md : PyDate) : Option String :=
  if anyKeywordIn t ["kemarin", "kmrn", "yesterday", "tadi malam"] then
    some (fmtDate (subDays md 1))
  else if anyKeywordIn t ["kemarin dulu", "lusa kemarin", "kemarin lusa"] then
    some (fmtDate (subDays md 2))
  else if anyKeywordIn t ["besok", "tomorrow"] then
    some (fmtDate (addDays md 1))
  else none

/-- Weekday keyword table, in the source's dict order. -/
def weekdayKeywordTable : List (Nat × List String) :=
  [(0, ["senin", "monday"]), (1, ["selasa", "tuesday"]), (2, ["rabu", "wednesday"]),
   (3, ["kamis", "thursday"]), (4, ["jumat", "friday"]), (5, ["sabtu", "saturday"]),
   (6, ["minggu", "sunday"])]

/-- Stage 2: days of the week.  `days_back = (current - target) % 7` with
Python's nonnegative `%`; zero means "today". -/
def weekdayStep (t : List Char) (md : PyDate) : Option String :=
  match weekdayKeywordTable.find? (fun p => anyKeywordIn t p.2) with
  | some (target, _) =>
    let daysBack := (pyWeekday md + 7 - target) % 7
    if daysBack = 0 then some (fmtDate md)
    else some (fmtDate (subDays md daysBack))
  | none => none

/-- Position matcher for the `DD/MM` regex — `\b`, one or two digits
(group 1), a slash-or-dash separator, one or two digits (group 2), `\b`:
up to two digits
(greedy, with backtracking), a separator, up to two digits, and word
boundaries on both sides. -/
def ddmmAt (prev : Option Char) (l : List Char) : Option (Nat × Nat) :=
  if !boundaryBefore prev then none
  else
    let tryLens : List Char → Option (List Char × List Char) := fun s =>
      match s with
      | a :: b :: r =>
        if isDigitCh a && isDigitCh b then some ([a, b], r)
        else if isDigitCh a then some ([a], b :: r)
        else none
      | [a] => if isDigitCh a then some ([a], []) else none
      | [] => none
    let trySecond : List Char → Option (List Char) := fun s =>
      match s with
      | a :: b :: r =>
        if isDigitCh a && isDigitCh b && boundaryAfter r then some [a, b]
        else if isDigitCh a && boundaryAfter (b :: r) then some [a]
        else none
      | [a] => if isDigitCh a then some [a] else none
      | [] => none
    match tryLens l with
    | some (ds, rest) =>
      match rest with
      | sep :: rest2 =>
        if sep = '/' || sep = '-' then
          match trySecond rest2 with
          | some ms => some (digitsToNat ds, digitsToNat ms)
          | none =>
            -- backtrack `\d{1,2}` to one digit when two were taken
            match ds with
            | [a, b] =>
              match (b :: rest) with
              | sep' :: rest' =>
                if (sep' = '/' || sep' = '-') then
                  match trySecond rest' with
                  | some ms => some (digitsToNat [a], digitsToNat ms)
                  | none => none
                else none
              | [] => none
            | _ => none
        else
          -- two digits taken but no separator after them: retry with one
          match ds with
          | [a, b] =>
            if (b = '/' || b = '-') then
              match trySecond (sep :: rest2) with
              | some ms => some (digitsToNat [a], digitsToNat ms)
              | none => none
            else none
          | _ => none
      | [] => none
    | none => none

/-- Stage 3a: `DD/MM` — current year; rolled back one year when the result
would lie after the reference (`replace` errors fall through). -/
def ddmmStep (t : List Char) (md : PyDate) : Option String :=
  match scanPosB ddmmAt none t with
  | none => none
  | some (d, m) =>
    if 1 ≤ d ∧ d ≤ 31 ∧ 1 ≤ m ∧ m ≤ 12 then
      match replaceMD md m d with
      | none => none
      | some target =>
        if dateLt md target then
          match replaceYearF target (target.year - 1) with
          | none => none
          | some rolled => some (fmtDate rolled)
        else some (fmtDate target)
    else none

/-- Position matcher for the `DD/MM/YY[YY]` regex — `\b`, one or two
digits, a slash-or-dash separator, one or two digits, another separator,
two to four digits, `\b`.
The day and month groups reuse the `DD/MM` machinery shape; the year group
is two to four digits, greedy, with a trailing word boundary. -/
def ddmmyyAt (prev : Option Char) (l : List Char) : Option (Nat × Nat × Nat) :=
  if !boundaryBefore prev then none
  else
    let sepOk : Char → Bool := fun c => c = '/' || c = '-'
    -- year part: two to four digits, greedy, then \b
    let tryYear : List Char → Option (List Char) := fun s =>
      let (ys, restY) := takeDigitsUpTo 4 s
      if ys.length ≥ 2 && boundaryAfter restY then some ys
      else
        -- backtracking the greedy year group before a trailing \b cannot
        -- succeed: giving back a digit leaves a digit (word char) after it
        none
    -- try a concrete split (dlen, mlen) of the two leading groups
    let trySplit : Nat → Nat → Option (Nat × Nat × Nat) := fun dlen mlen =>
      let (ds, r1) := takeDigitsUpTo dlen l
      if ds.length = dlen then
        match r1 with
        | s1 :: r2 =>
          if sepOk s1 then
            let (ms, r3) := takeDigitsUpTo mlen r2
            if ms.length = mlen then
              match r3 with
              | s2 :: r4 =>
                if sepOk s2 then
                  match tryYear r4 with
                  | some ys => some (digitsToNat ds, digitsToNat ms, digitsToNat ys)
                  | none => none
                else none
              | [] => none
            else none
          else none
        | [] => none
      else none
    match trySplit 2 2 with
    | some r => some r
    | none =>
    match trySplit 2 1 with
    | some r => some r
    | none =>
    match trySplit 1 2 with
    | some r => some r
    | none => trySplit 1 1

/-- Stage 3b: `DD/MM/YY[YY]` — two-digit years pivot below 50 to 20xx,
otherwise to 19xx; the formatted string is emitted directly, without any
calendar validation, only when day, month and pivoted year pass the range
checks (year window 2020–2030). -/
def ddmmyyStep (t : List Char) (_md : PyDate) : Option String :=
  match scanPosB ddmmyyAt none t with
  | none => none
  | some (d, m, y) =>
    let y' := if y < 100 then (if y < 50 then y + 2000 else y + 1900) else y
    if 1 ≤ d ∧ d ≤ 31 ∧ 1 ≤ m ∧ m ≤ 12 ∧ 2020 ≤ y' ∧ y' ≤ 2030 then
      some (formatYMD y' m d)
    else none

/-- Position matcher for `(?:tanggal|tgl)\s+(\d{1,2})`. -/
def tanggalAt (l : List Char) : Option Nat :=
  let afterKw : Option (List Char) :=
    if startsWith "tanggal".toList l then some (l.drop 7)
    else if startsWith "tgl".toList l then some (l.drop 3)
    else none
  match afterKw with
  | none => none
  | some rest =>
    let spaces := rest.takeWhile isSpaceCh
    if spaces.isEmpty then none
    else
      let rest2 := rest.dropWhile isSpaceCh
      match rest2 with
      | a :: b :: _ =>
        if isDigitCh a && isDigitCh b then some (digitsToNat [a, b])
        else if isDigitCh a then some (digitsToNat [a])
        else none
      | [a] => if isDigitCh a then some (digitsToNat [a]) else none
      | [] => none

/-- Stage 3c: `tanggal|tgl N` — day of the current month; rolled back one
month when after the reference (`replace` errors fall through). -/
def tanggalStep (t : List Char) (md : PyDate) : Option String :=
  match scanPos tanggalAt t with
  | none => none
  | some day =>
    if 1 ≤ day ∧ day ≤ 31 then
      match replaceDayF md day with
      | none => none
      | some target =>
        if dateLt md target then
          match replaceMonthF target (target.month - 1) with
          | none => none
          | some rolled => some (fmtDate rolled)
        else some (fmtDate target)
    else none

/-- Position matcher for `(\d{1,2})\s+(?:kemarin|lalu|yang lalu)`. -/
def daysAgoAt (l : List Char) : Option Nat :=
  let tryTail : List Char → Option Unit := fun rest =>
    let spaces := rest.takeWhile isSpaceCh
    if spaces.isEmpty then none
    else
      let rest2 := rest.dropWhile isSpaceCh
      if startsWith "kemarin".toList rest2 || startsWith "lalu".toList rest2 ||
         startsWith "yang lalu".toList rest2 then some () else none
  match l with
  | a :: b :: r =>
    if isDigitCh a && isDigitCh b then
      match tryTail r with
      | some _ => some (digitsToNat [a, b])
      | none =>
        if (tryTail (b :: r)).isSome then some (digitsToNat [a]) else none
    else if isDigitCh a then
      if (tryTail (b :: r)).isSome then some (digitsToNat [a]) else none
    else none
  | [_] => none
  | [] => none

/-- Stage 3d: `N kemarin|lalu` — days ago, accepted only up to 31. -/
def daysAgoStep (t : List Char) (md : PyDate) : Option String :=
  match scanPos daysAgoAt t with
  | none => none
  | some n =>
    if n ≤ 31 then some (fmtDate (subDays md n)) else none

/-- Stage 4 keywords: a residual time-of-day hint keeps the message date. -/
def timeContextHit (t : List Char) : Bool :=
  anyKeywordIn t ["pagi", "siang", "sore", "malam", "tadi", "barusan"]

/-- The deterministic portion of `_determine_transaction_date` that runs
when no usable AI-extracted date is present. -/
def resolveDateFromText (md : PyDate) (text : String) : String :=
  let t := pyStrip (pyLower text.toList)
  match relativeStep t md with
  | some s => s
  | none =>
  match weekdayStep t md with
  | some s => s
  | none =>
  match ddmmStep t md with
  | some s => s
  | none =>
  match ddmmyyStep t md with
  | some s => s
  | none =>
  match tanggalStep t md with
  | some s => s
  | none =>
  match daysAgoStep t md with
  | some s => s
  | none =>
  if timeContextHit t then fmtDate md else fmtDate md

/-- `AIProcessor._determine_transaction_date`.  A truthy AI-extracted date
other than the literal string `"null"` is returned verbatim, before any
deterministic parsing; the reference timestamp is assumed already
timezone-naive (the function only strips a tzinfo, which the model has no
notion of). -/
def determine_transaction_date (aiDate : Option String) (md : PyDate)
    (text : String) : String :=
  match aiDate with
  | some s => if s ≠ "" ∧ s ≠ "null" then s else resolveDateFromText md text
  | none => resolveDateFromText md text

/-! ### `src/utils.py`, `DateUtils.parse_indonesian_date` -/

/-- Weekday dict of `DateUtils`: English names first, then Indonesian,
in the source's dict order. -/
def utilsWeekdayTable : List (String × Nat) :=
  [("monday", 0), ("tuesday", 1), ("wednesday", 2), ("thursday", 3),
   ("friday", 4), ("saturday", 5), ("sunday", 6),
   ("senin", 0), ("selasa", 1), ("rabu", 2), ("kamis", 3),
   ("jumat", 4), ("sabtu", 5), ("minggu", 6)]

/-- `DateUtils.parse_indonesian_date` (reference date supplied).  The
relative dict is iterated in insertion order: yesterday, today, tomorrow,
day-before-yesterday — so `kemarin dulu` and `lusa kemarin` are captured by
the yesterday entry first. -/
def parse_indonesian_date (text : String) (reference : PyDate) : String :=
  let t := pyStrip (pyLower text.toList)
  if anyKeywordIn t ["kemarin", "kmrn", "yesterday"] then
    fmtDate (subDays reference 1)
  else if anyKeywordIn t ["hari ini", "today", "tadi", "barusan"] then
    fmtDate reference
  else if anyKeywordIn t ["besok", "tomorrow"] then
    fmtDate (addDays reference 1)
  else if anyKeywordIn t ["kemarin dulu", "lusa kemarin"] then
    fmtDate (subDays reference 2)
  else
    match utilsWeekdayTable.find? (fun p => strHas t p.1) with
    | some (_, target) =>
      let daysBack := (pyWeekday reference + 7 - target) % 7
      if daysBack = 0 then fmtDate reference
      else fmtDate (subDays reference daysBack)
    | none => fmtDate reference

/-! ## Category Classifier (`src/utils.py`, `CategoryUtils.match_category_by_keywords`) -/

/-- Keyword table of `CategoryUtils`, in the source's dict order. -/
def categoryKeywords : List (String × List String) :=
  [("Food & Dining",
    ["makan", "food", "nasi", "ayam", "sate", "warteg", "resto", "cafe",
     "kfc", "mcd", "pizza", "bakery", "bread", "cake", "goreng", "sop", "bakso"]),
   ("Transportation",
    ["bensin", "grab", "gojek", "ojek", "bus", "taxi", "motor", "mobil",
     "pertamina", "shell", "spbu", "parkir", "tol"]),
   ("Shopping & Retail",
    ["beli", "belanja", "shop", "mall", "alfamart", "indomaret", "toko",
     "hypermart", "carrefour", "giant", "supermarket"]),
   ("Personal Care & Beauty",
    ["salon", "potong rambut", "spa", "massage", "kosmetik", "pijet",
     "barbershop", "facial", "manicure", "pedicure"]),
   ("Utilities & Bills",
    ["listrik", "air", "internet", "pulsa", "token", "pln", "telkom",
     "indihome", "wifi", "bayar tagihan"]),
   ("Health & Medical",
    ["dokter", "obat", "sakit", "rumah sakit", "apotek", "klinik",
     "medical", "hospital", "periksa"]),
   ("Entertainment & Recreation",
    ["bioskop", "film", "game", "nonton", "karaoke", "gym", "fitness",
     "cinema", "netflix", "spotify", "main"])]

/-- The combined haystack `f"{text.lower()} {location.lower()}"` used by
both classifiers. -/
def combinedText (text location : String) : List Char :=
  pyLower text.toList ++ [' '] ++ pyLower location.toList

/-- The best-score fold of `match_category_by_keywords`: iterate the table
in declaration order, keeping the first label (present in the supplied set)
whose hit count strictly exceeds the running best. -/
def matchFold (combined : List Char) (cats : List String) :
    List (String × List String) → Option String → Nat → Option String
  | [], best, _ => best
  | (c, kws) :: rest, best, bestScore =>
    if cats.contains c then
      let score := countHits combined kws
      if bestScore < score then matchFold combined cats rest (some c) score
      else matchFold combined cats rest best bestScore
    else matchFold combined cats rest best bestScore

/-- `CategoryUtils.match_category_by_keywords`.  `combined_text` is
`text.lower() + " " + location.lower()`; on no positive score the last
supplied category is returned, or the literal `Others` on an empty set. -/
def match_category_by_keywords (text location : String)
    (available_categories : List String) : String :=
  match matchFold (combinedText text location) available_categories categoryKeywords none 0 with
  | some c => c
  | none => available_categories.getLastD "Others"

/-! ## AI-fallback classifier (`src/ai_processor.py`, `AIProcessor._smart_categorize_fallback`) -/

/-- Keyword table of `_smart_categorize_fallback`, in the source's dict
order (a shorter table than the utility classifier's, with two extra
labels). -/
def smartCategoryKeywords : List (String × List String) :=
  [("Food & Dining",
    ["makan", "food", "nasi", "ayam", "sate", "warteg", "resto", "cafe", "kfc", "mcd"]),
   ("Transportation",
    ["bensin", "grab", "gojek", "ojek", "bus", "taxi", "motor", "mobil", "pertamina"]),
   ("Shopping & Retail",
    ["beli", "belanja", "shop", "mall", "alfamart", "indomaret", "toko"]),
   ("Utilities & Bills",
    ["listrik", "air", "internet", "pulsa", "token", "pln", "telkom"]),
   ("Health & Medical",
    ["dokter", "obat", "sakit", "rumah sakit", "apotek", "klinik"]),
   ("Entertainment & Recreation",
    ["bioskop", "film", "game", "nonton", "karaoke", "gym"]),
   ("Education & Learning",
    ["sekolah", "kursus", "les", "buku", "kuliah"]),
   ("Personal Care & Beauty",
    ["salon", "potong rambut", "spa", "kosmetik"]),
   ("Housing & Rent",
    ["sewa", "kost", "kontrakan", "rumah", "apartemen"])]

/-- The first-hit loop of `_smart_categorize_fallback`: return the first
label, in declaration order, that is present in the supplied set and has at
least one keyword hit — regardless of how many keywords later labels hit. -/
def smartFold (combined : List Char) (cats : List String) :
    List (String × List String) → Option String
  | [] => none
  | (c, kws) :: rest =>
    if cats.contains c then
      if anyKeywordIn combined kws then some c
      else smartFold combined cats rest
    else smartFold combined cats rest

/-- `AIProcessor._smart_categorize_fallback`. -/
def smart_categorize_fallback (text location : String)
    (available_categories : List String) : String :=
  match smartFold (combinedText text location) available_categories smartCategoryKeywords with
  | some c => c
  | none => available_categories.getLastD "Others"

/-- The category-validation step of `AIProcessor.parse_expense_text`: a
guessed category not contained in the current set (including a missing
guess) is replaced by the smart fallback. -/
def aiPathCategory (guess : Option String) (text location : String)
    (available_categories : List String) : String :=
  match guess with
  | some g =>
    if available_categories.contains g then g
    else smart_categorize_fallback text location available_categories
  | none => smart_categorize_fallback text location available_categories

/-! ## Text fallback path (`src/ai_processor.py`, `AIProcessor._fallback_parse`) -/

/-- Matcher for the fallback pattern `(\d+)(?:ribu|rb)` (no whitespace
allowed between digits and keyword). -/
def fbRibuAt (l : List Char) : Option (List Char) :=
  let (ds, rest) := takeDigits l
  if ds.isEmpty then none
  else if startsWith "ribu".toList rest || startsWith "rb".toList rest then some ds
  else none

/-- Matcher for the fallback pattern `(\d+)k`. -/
def fbKAt (l : List Char) : Option (List Char) :=
  let (ds, rest) := takeDigits l
  if ds.isEmpty then none
  else
    match rest with
    | 'k' :: _ => some ds
    | _ => none

/-- Matcher for the fallback pattern `(\d+)(?:000)`: the greedy digit group
backtracks until the three characters after it are `000`; those characters
are digits, so they must lie inside the same digit run, and the largest
split is taken first. -/
def fbZerosAt (l : List Char) : Option (List Char) :=
  let (ds, _) := takeDigits l
  let n := ds.length
  if n < 4 then none
  else
    -- largest k with 1 ≤ k ≤ n - 3 and ds[k], ds[k+1], ds[k+2] = '0'
    let rec findK : Nat → Option (List Char)
      | 0 => none
      | k + 1 =>
        if (ds.drop (k + 1)).take 3 = ['0', '0', '0'] then some (ds.take (k + 1))
        else findK k
    findK (n - 3)

/-- `AIProcessor._fallback_parse` amount extraction: the first matching
pattern fixes the digit group, and the multiplier is then chosen by
whole-text keyword containment (`ribu`/`rb`, else `k`, else none). -/
def fallbackAmount (text : String) : Nat :=
  let t := pyLower text.toList
  let finish : List Char → Nat := fun ds =>
    let num := digitsToNat ds
    if strHas t "ribu" || strHas t "rb" then num * 1000
    else if strHas t "k" then num * 1000
    else num
  match scanPos fbRibuAt t with
  | some ds => finish ds
  | none =>
  match scanPos fbKAt t with
  | some ds => finish ds
  | none =>
  match scanPos fbZerosAt t with
  | some ds => finish ds
  | none =>
  match scanPos bareDigitsAt t with
  | some ds => finish ds
  | none => 0

/-- `AIProcessor._fallback_parse` category detection: fixed labels chosen by
keyword containment, never validated against any category set. -/
def fallbackCategory (text : String) : String :=
  let t := pyLower text.toList
  if anyKeywordIn t ["makan", "beli", "food", "goreng"] then "Food"
  else if anyKeywordIn t ["bensin", "grab", "gojek"] then "Transport"
  else "Other"

/-- Python `str.capitalize`: first character uppercased, the rest lowered
(ASCII model). -/
def pyCapitalize (l : List Char) : List Char :=
  match l with
  | [] => []
  | c :: t =>
    (if 'a' ≤ c && c ≤ 'z' then Char.ofNat (c.toNat - 32) else c) :: pyLower t

/-- The flat expense record assembled by the engine. -/
structure ExpenseRecord where
  description : String
  amount : Nat
  location : String
  category : String
  transaction_date : String
  input_by : String
deriving DecidableEq

/-- `AIProcessor._fallback_parse`: the complete fallback record. -/
def fallback_parse (text : String) (message_date : PyDate)
    (user_name : Option String) : ExpenseRecord :=
  { description := String.mk (pyCapitalize (text.toList.take 50))
    amount := fallbackAmount text
    location := "Unknown"
    category := fallbackCategory text
    transaction_date := determine_transaction_date none message_date text
    input_by := user_name.getD "Unknown" }

/-! ## Receipt categorizer (`src/vision_processor.py`,
`VisionProcessor._categorize_receipt_enhanced`) -/

/-- `VisionProcessor._categorize_receipt_enhanced`: fixed labels keyed on
the merchant string (and, for Health, the whole OCR text), never validated
against any category set. -/
def categorize_receipt_enhanced (location full_text : String) : String :=
  let locL := pyLower location.toList
  let textL := pyLower full_text.toList
  if anyKeywordIn locL
      ["breadtalk", "bread talk", "bakery", "cake", "pastry",
       "restaurant", "resto", "cafe", "food", "makan", "warung",
       "rumah makan", "kfc", "mcd", "pizza", "bakso", "nasi"] then "Food"
  else if anyKeywordIn locL
      ["market", "mart", "grocery", "supermarket", "indomaret",
       "alfamart", "shop", "store", "mall", "plaza"] then "Shopping"
  else if anyKeywordIn locL
      ["gas", "petrol", "shell", "pertamina", "bensin", "spbu"] then "Transport"
  else if anyKeywordIn textL
      ["pharmacy", "apotek", "medicine", "obat", "dokter", "clinic"] then "Health"
  else "Other"

/-- The ten-category default set of `AIProcessor._get_available_categories`. -/
def defaultCategories : List String :=
  ["Food & Dining", "Transportation", "Shopping & Retail", "Utilities & Bills",
   "Health & Medical", "Entertainment & Recreation", "Education & Learning",
   "Personal Care & Beauty", "Housing & Rent", "Others"]

/-! ## Amount Candidate Selector (`src/vision_processor.py`,
`VisionProcessor._extract_total_amount` and `_parse_indonesian_number`) -/

/-- A thousands/decimal separator (`[.,]`). -/
def sepCh (c : Char) : Bool := c = '.' || c = ','

/-- Greedy star over separator-plus-three-digit blocks, the
`([.,]\d{3})*` part of the receipt number patterns: returns the consumed
block characters and the remainder. -/
def starThousands : List Char → List Char × List Char
  | s :: a :: b :: c :: rest =>
    if sepCh s && isDigitCh a && isDigitCh b && isDigitCh c then
      let (g, r) := starThousands rest
      (s :: a :: b :: c :: g, r)
    else ([], s :: a :: b :: c :: rest)
  | l => ([], l)

/-- Position matcher for the receipt number group: one to three digits,
separator-plus-three-digit blocks, and (when `withDec` is set, as in the
total-line pattern) an optional separator-plus-two-digit tail.  The group
ends the pattern, so the greedy quantifiers never backtrack; after the
star has stopped, at most two digits can follow a separator. -/
def groupedNumAt (withDec : Bool) (l : List Char) : Option (List Char × List Char) :=
  let (ds, r1) := takeDigitsUpTo 3 l
  if ds.isEmpty then none
  else
    let (g, r2) := starThousands r1
    if withDec then
      match r2 with
      | s :: a :: b :: rest =>
        if sepCh s && isDigitCh a && isDigitCh b then some (ds ++ g ++ [s, a, b], rest)
        else some (ds ++ g, r2)
      | _ => some (ds ++ g, r2)
    else some (ds ++ g, r2)

/-- `re.findall` driver: leftmost matches, continuing after each consumed
span (every matcher used here consumes at least one character, so a fuel of
the input length suffices). -/
def findAllWith (f : List Char → Option (List Char × List Char))
    (l : List Char) : List (List Char) :=
  go l.length l
  where
    go : Nat → List Char → List (List Char)
      | 0, _ => []
      | _, [] => []
      | fuel + 1, l@(_ :: t) =>
        match f l with
        | some (g, rest) => g :: go fuel rest
        | none => go fuel t

/-- `VisionProcessor._parse_indonesian_number`: strip every separator and
read the digits (the float conversion is exact in the selector's range). -/
def parse_indonesian_number (s : List Char) : Nat :=
  digitsToNat (s.filter (fun c => !sepCh c))

/-- Candidate source tags of `_extract_total_amount`. -/
inductive AmountSource
  | total_line
  | bottom_line
  | rp_pattern
deriving DecidableEq

/-- Total-indicator keywords, in source order. -/
def totalIndicators : List String :=
  ["total", "grand total", "subtotal", "jumlah", "amount due"]

/-- Contact keywords that exclude a bottom line. -/
def contactWords : List String := ["phone", "hp", "tel", "wa", "whatsapp", "contact"]

/-- Reference keywords that exclude a bottom line. -/
def refWords : List String := ["ref", "invoice", "receipt", "cashier", "kasir"]

/-- Strategy 1: for every line and every total indicator contained in its
lowercase form, the line's first number group (decimal tail allowed) is a
`total_line` candidate when at least 100. -/
def totalPass (lines : List String) : List (AmountSource × Nat × String) :=
  lines.flatMap (fun line =>
    totalIndicators.filterMap (fun ind =>
      if strHas (pyLower line.toList) ind then
        match scanPos (fun l => (groupedNumAt true l).map (fun p => p.1)) line.toList with
        | some g =>
          let v := parse_indonesian_number g
          if 100 ≤ v then some (AmountSource.total_line, v, line) else none
        | none => none
      else none))

/-- Strategy 2: every number group (no decimal tail) of the last five
lines, skipping lines with contact or reference keywords; values below 100
are dropped. -/
def bottomPass (lines : List String) : List (AmountSource × Nat × String) :=
  (lines.drop (lines.length - 5)).flatMap (fun line =>
    if anyKeywordIn (pyLower line.toList) contactWords then []
    else if anyKeywordIn (pyLower line.toList) refWords then []
    else
      (findAllWith (groupedNumAt false) line.toList).filterMap (fun g =>
        let v := parse_indonesian_number g
        if 100 ≤ v then some (AmountSource.bottom_line, v, line) else none))

/-- Matcher for `rp\.?\s*` followed by a number group.  The optional dot and
the greedy whitespace are deterministic here: skipping them leaves a
character that can start neither the whitespace run nor a digit. -/
def rpAAt (l : List Char) : Option (List Char × List Char) :=
  if startsWith "rp".toList l then
    let r1 := l.drop 2
    let r2 := match r1 with
      | '.' :: t => t
      | _ => r1
    let r3 := r2.dropWhile isSpaceCh
    groupedNumAt false r3
  else none

/-- Matcher for a number group followed by `\s*rp`.  Backtracking the
number group cannot help: any shorter group leaves a separator or a digit
where `\s*rp` would have to start. -/
def rpBAt (l : List Char) : Option (List Char × List Char) :=
  match groupedNumAt false l with
  | some (g, rest) =>
    let rest2 := rest.dropWhile isSpaceCh
    if startsWith "rp".toList rest2 then some (g, rest2.drop 2) else none
  | none => none

/-- Strategy 3: currency-marked numbers over the lowercase full text, first
all `rp`-prefixed groups, then all `rp`-suffixed ones. -/
def rpPass (full_text : String) : List (AmountSource × Nat × String) :=
  let ftl := pyLower full_text.toList
  let keep : List Char → Option (AmountSource × Nat × String) := fun g =>
    let v := parse_indonesian_number g
    if 100 ≤ v then some (AmountSource.rp_pattern, v, "Rp " ++ String.mk g) else none
  (findAllWith rpAAt ftl).filterMap keep ++ (findAllWith rpBAt ftl).filterMap keep

/-- Search for a boundary-delimited run of ten or more digits (the phone
filter).  A maximal digit run matches iff it is at least ten digits long and
flanked by non-word characters: backtracking the greedy run always leaves a
digit after the match, where the trailing boundary fails. -/
def hasLongDigitRun (line : String) : Bool :=
  go none line.toList
  where
    go : Option Char → List Char → Bool
      | _, [] => false
      | prev, c :: t =>
        (boundaryBefore prev && isDigitCh c &&
          (let (ds, rest) := takeDigits (c :: t)
           10 ≤ ds.length && boundaryAfter rest)) ||
        go (some c) t

/-- Python `max` over a list of nonnegative candidate values. -/
def listMax (l : List Nat) : Nat := l.foldl Nat.max 0

/-- `VisionProcessor._extract_total_amount`: collect the three tagged
candidate passes, then select by priority — total lines, bottom lines not
carrying a ten-plus digit run, currency-marked, and finally any candidate
within 100..10,000,000; 0 when nothing survives. -/
def extract_total_amount (lines : List String) (full_text : String) : Nat :=
  let amounts := totalPass lines ++ bottomPass lines ++ rpPass full_text
  if amounts.isEmpty then 0
  else
    let tl := amounts.filterMap (fun c =>
      if c.1 = AmountSource.total_line then some c.2.1 else none)
    if !tl.isEmpty then listMax tl
    else
      let ba := amounts.filterMap (fun c =>
        if c.1 = AmountSource.bottom_line && !hasLongDigitRun c.2.2 then
          some c.2.1
        else none)
      if !ba.isEmpty then listMax ba
      else
        let rp := amounts.filterMap (fun c =>
          if c.1 = AmountSource.rp_pattern then some c.2.1 else none)
        if !rp.isEmpty then listMax rp
        else
          let alla := amounts.filterMap (fun c =>
            if 100 ≤ c.2.1 && c.2.1 ≤ 10000000 then some c.2.1 else none)
          if !alla.isEmpty then listMax alla else 0

/-- The selection cascade as the amended claim describes it: the maxima of
the three tagged candidate pools, with bottom-line candidates restricted to
lines carrying no ten-plus digit run, then the bounded remainder. -/
def amendedSelection (lines : List String) (full_text : String) : Nat :=
  let t := (totalPass lines).map (fun c => c.2.1)
  let b := (bottomPass lines).filterMap (fun c =>
    if hasLongDigitRun c.2.2 then none else some c.2.1)
  let r := (rpPass full_text).map (fun c => c.2.1)
  let rest := ((totalPass lines ++ bottomPass lines ++ rpPass full_text).map
    (fun c => c.2.1)).filter (fun v => 100 ≤ v && v ≤ 10000000)
  if !t.isEmpty then listMax t
  else if !b.isEmpty then listMax b
  else if !r.isEmpty then listMax r
  else if !rest.isEmpty then listMax rest
  else 0

/-- The selection cascade exactly as the claim states it (no digit-run
filter on the bottom-line pool). -/
def claimedSelection (lines : List String) (full_text : String) : Nat :=
  let t := (totalPass lines).map (fun c => c.2.1)
  let b := (bottomPass lines).map (fun c => c.2.1)
  let r := (rpPass full_text).map (fun c => c.2.1)
  let rest := ((totalPass lines ++ bottomPass lines ++ rpPass full_text).map
    (fun c => c.2.1)).filter (fun v => 100 ≤ v && v ≤ 10000000)
  if !t.isEmpty then listMax t
  else if !b.isEmpty then listMax b
  else if !r.isEmpty then listMax r
  else if !rest.isEmpty then listMax rest
  else 0

/-! ## Specification-side views and supporting lemmas -/

/-- The per-label hit counts of the table rows whose label is present in
the supplied set, in declaration order — the scoreboard both classifier
claims speak about. -/
def eligScores (table : List (String × List String)) (cats : List String)
    (combined : List Char) : List (String × Nat) :=
  (table.filter (fun p => cats.contains p.1)).map (fun p => (p.1, countHits combined p.2))

/-- The best-score fold restated over the scoreboard. -/
def eligFold : List (String × Nat) → Option String → Nat → Option String
  | [], best, _ => best
  | (c, sc) :: rest, best, bestScore =>
    if bestScore < sc then eligFold rest (some c) sc
    else eligFold rest best bestScore

theorem matchFold_eq_eligFold (combined : List Char) (cats : List String) :
    ∀ (table : List (String × List String)) (best : Option String) (bs : Nat),
      matchFold combined cats table best bs =
        eligFold (eligScores table cats combined) best bs := by
  intro table
  induction table with
  | nil => intro best bs; rfl
  | cons p rest ih =>
    intro best bs
    obtain ⟨c, kws⟩ := p
    by_cases hc : c ∈ cats
    · by_cases hlt : bs < countHits combined kws <;>
        simp [matchFold, eligScores, eligFold, List.filter_cons, hc, hlt, ih]
    · simp [matchFold, eligScores, eligFold, List.filter_cons, hc, ih]

theorem eligFold_of_no_improvement :
    ∀ (l : List (String × Nat)) (best : Option String) (bs : Nat),
      (∀ p ∈ l, p.2 ≤ bs) → eligFold l best bs = best := by
  intro l
  induction l with
  | nil => intro best bs _; rfl
  | cons p rest ih =>
    intro best bs h
    obtain ⟨c, sc⟩ := p
    have hsc : sc ≤ bs := h (c, sc) (List.mem_cons_self _ _)
    have hrest : ∀ q ∈ rest, q.2 ≤ bs := fun q hq => h q (List.mem_cons_of_mem _ hq)
    simp [eligFold, Nat.not_lt.mpr hsc, ih _ _ hrest]

theorem eligFold_first_max :
    ∀ (l : List (String × Nat)) (best : Option String) (bs : Nat),
      (∃ p ∈ l, bs < p.2) →
      ∃ pre c sc post,
        l = pre ++ (c, sc) :: post ∧ eligFold l best bs = some c ∧ bs < sc ∧
        (∀ p ∈ pre, p.2 < sc) ∧ (∀ p ∈ post, p.2 ≤ sc) := by
  intro l
  induction l with
  | nil => intro best bs h; simp at h
  | cons p rest ih =>
    intro best bs h
    obtain ⟨c0, s0⟩ := p
    by_cases h0 : bs < s0
    · by_cases hrest : ∃ q ∈ rest, s0 < q.2
      · obtain ⟨pre, c, sc, post, hdec, hfold, hlt, hpre, hpost⟩ :=
          ih (some c0) s0 hrest
        refine ⟨(c0, s0) :: pre, c, sc, post, by simp [hdec], ?_, ?_, ?_, hpost⟩
        · simp [eligFold, h0, hfold]
        · exact Nat.lt_trans h0 hlt
        · intro q hq
          rcases List.mem_cons.mp hq with hq | hq
          · subst hq; exact hlt
          · exact hpre q hq
      · push_neg at hrest
        refine ⟨[], c0, s0, rest, by simp, ?_, h0, by simp, hrest⟩
        simp [eligFold, h0, eligFold_of_no_improvement rest (some c0) s0 hrest]
    · have hrest : ∃ q ∈ rest, bs < q.2 := by
        rcases h with ⟨q, hq, hlt⟩
        rcases List.mem_cons.mp hq with hq | hq
        · subst hq; exact absurd hlt h0
        · exact ⟨q, hq, hlt⟩
      obtain ⟨pre, c, sc, post, hdec, hfold, hlt, hpre, hpost⟩ := ih best bs hrest
      refine ⟨(c0, s0) :: pre, c, sc, post, by simp [hdec], ?_, hlt, ?_, hpost⟩
      · simp [eligFold, h0, hfold]
      · intro q hq
        rcases List.mem_cons.mp hq with hq | hq
        · subst hq
          exact Nat.lt_of_le_of_lt (Nat.not_lt.mp h0) hlt
        · exact hpre q hq

theorem anyKeywordIn_iff_countHits (hay : List Char) (kws : List String) :
    anyKeywordIn hay kws = true ↔ 0 < countHits hay kws := by
  unfold anyKeywordIn countHits
  rw [List.any_eq_true, List.length_pos_iff_ne_nil]
  constructor
  · rintro ⟨k, hk, hh⟩ hnil
    exact (List.filter_eq_nil_iff.mp hnil) k hk hh
  · intro hne
    rcases List.exists_mem_of_ne_nil _ hne with ⟨k, hk⟩
    exact ⟨k, List.mem_of_mem_filter hk, List.of_mem_filter hk⟩

theorem smartFold_first (combined : List Char) (cats : List String) :
    ∀ table : List (String × List String),
      (∃ p ∈ eligScores table cats combined, 0 < p.2) →
      ∃ pre c sc post,
        eligScores table cats combined = pre ++ (c, sc) :: post ∧
        smartFold combined cats table = some c ∧ 0 < sc ∧
        (∀ p ∈ pre, p.2 = 0) := by
  intro table
  induction table with
  | nil => intro h; simp [eligScores] at h
  | cons p rest ih =>
    intro h
    obtain ⟨c0, kws⟩ := p
    by_cases hc : c0 ∈ cats
    · by_cases hhit : anyKeywordIn combined kws = true
      · refine ⟨[], c0, countHits combined kws, eligScores rest cats combined,
          ?_, ?_, ?_, by simp⟩
        · simp [eligScores, List.filter_cons, hc]
        · simp [smartFold, hc, hhit]
        · exact (anyKeywordIn_iff_countHits combined kws).mp hhit
      · have hz : countHits combined kws = 0 := by
          rcases Nat.eq_zero_or_pos (countHits combined kws) with h0 | h0
          · exact h0
          · exact absurd ((anyKeywordIn_iff_countHits combined kws).mpr h0) hhit
        have hcons : eligScores ((c0, kws) :: rest) cats combined =
            (c0, countHits combined kws) :: eligScores rest cats combined := by
          simp [eligScores, List.filter_cons, hc]
        have hrest : ∃ q ∈ eligScores rest cats combined, 0 < q.2 := by
          rcases h with ⟨q, hq, hpos⟩
          rw [hcons] at hq
          rcases List.mem_cons.mp hq with hq | hq
          · subst hq; simp [hz] at hpos
          · exact ⟨q, hq, hpos⟩
        obtain ⟨pre, c, sc, post, hdec, hfold, hpos, hpre⟩ := ih hrest
        refine ⟨(c0, countHits combined kws) :: pre, c, sc, post, ?_, ?_, hpos, ?_⟩
        · rw [hcons, hdec]; rfl
        · simp [smartFold, hc, hhit, hfold]
        · intro q hq
          rcases List.mem_cons.mp hq with hq | hq
          · subst hq; exact hz
          · exact hpre q hq
    · have hskip : eligScores ((c0, kws) :: rest) cats combined =
          eligScores rest cats combined := by
        simp [eligScores, List.filter_cons, hc]
      rw [hskip] at h ⊢
      obtain ⟨pre, c, sc, post, hdec, hfold, hpos, hpre⟩ := ih h
      exact ⟨pre, c, sc, post, hdec, by simp [smartFold, hc, hfold], hpos, hpre⟩

theorem smartFold_mem (combined : List Char) (cats : List String) :
    ∀ (table : List (String × List String)) (c : String),
      smartFold combined cats table = some c → c ∈ cats := by
  intro table
  induction table with
  | nil => intro c h; simp [smartFold] at h
  | cons p rest ih =>
    intro c h
    obtain ⟨c0, kws⟩ := p
    by_cases hc : c0 ∈ cats
    · by_cases hhit : anyKeywordIn combined kws = true
      · simp [smartFold, hc, hhit] at h
        subst h; exact hc
      · simp [smartFold, hc, hhit] at h
        exact ih c h
    · simp [smartFold, hc] at h
      exact ih c h

theorem smartFold_none_of_zero (combined : List Char) (cats : List String) :
    ∀ table : List (String × List String),
      (∀ p ∈ table, countHits combined p.2 = 0) →
      smartFold combined cats table = none := by
  intro table
  induction table with
  | nil => intro _; rfl
  | cons p rest ih =>
    intro h
    obtain ⟨c0, kws⟩ := p
    have hz : countHits combined kws = 0 := h (c0, kws) (List.mem_cons_self _ _)
    have hhit : ¬ anyKeywordIn combined kws = true := by
      intro hh
      have := (anyKeywordIn_iff_countHits combined kws).mp hh
      omega
    have hrest := ih (fun q hq => h q (List.mem_cons_of_mem _ hq))
    by_cases hc : c0 ∈ cats <;> simp [smartFold, hc, hhit, hrest]

theorem smartFold_nil_cats (combined : List Char) :
    ∀ table : List (String × List String), smartFold combined [] table = none := by
  intro table
  induction table with
  | nil => rfl
  | cons p rest ih =>
    obtain ⟨c, kws⟩ := p
    simp [smartFold, ih]

theorem getLastD_eq_getLast :
    ∀ (l : List String) (d : String) (h : l ≠ []), l.getLastD d = l.getLast h := by
  intro l
  induction l with
  | nil => intro d h; exact absurd rfl h
  | cons a t ih =>
    intro d h
    cases t with
    | nil => rfl
    | cons b t' =>
      rw [List.getLastD_cons, List.getLast_cons (by simp)]
      exact ih a (by simp)

theorem getLastD_mem (l : List String) (d : String) (h : l ≠ []) :
    l.getLastD d ∈ l := by
  rw [getLastD_eq_getLast l d h]
  exact List.getLast_mem h

theorem selFilterMap_map (l : List α) (f : α → β) (g : α → Option β)
    (h : ∀ x ∈ l, g x = some (f x)) : l.filterMap g = l.map f := by
  induction l with
  | nil => rfl
  | cons a t ih =>
    rw [List.filterMap_cons, h a (List.mem_cons_self _ _), List.map_cons,
      ih (fun x hx => h x (List.mem_cons_of_mem _ hx))]

theorem selFilterMap_nil (l : List α) (g : α → Option β)
    (h : ∀ x ∈ l, g x = none) : l.filterMap g = [] := by
  induction l with
  | nil => rfl
  | cons a t ih =>
    rw [List.filterMap_cons, h a (List.mem_cons_self _ _),
      ih (fun x hx => h x (List.mem_cons_of_mem _ hx))]

theorem selFilterMap_congr (l : List α) (f g : α → Option β)
    (h : ∀ x ∈ l, f x = g x) : l.filterMap f = l.filterMap g := by
  induction l with
  | nil => rfl
  | cons a t ih =>
    rw [List.filterMap_cons, List.filterMap_cons, h a (List.mem_cons_self _ _),
      ih (fun x hx => h x (List.mem_cons_of_mem _ hx))]

theorem selFilterMap_if_filter (l : List α) (f : α → Nat) (p : Nat → Bool) :
    l.filterMap (fun x => if p (f x) then some (f x) else none) =
      (l.map f).filter p := by
  induction l with
  | nil => rfl
  | cons a t ih =>
    rw [List.filterMap_cons, List.map_cons, List.filter_cons]
    by_cases hp : p (f a) <;> simp [hp, ih]

theorem totalPass_tag (lines : List String) :
    ∀ c ∈ totalPass lines, c.1 = AmountSource.total_line := by
  intro c hc
  unfold totalPass at hc
  rw [List.mem_flatMap] at hc
  obtain ⟨line, _, hc⟩ := hc
  rw [List.mem_filterMap] at hc
  obtain ⟨ind, _, hc⟩ := hc
  split at hc
  · split at hc
    · simp only [] at hc
      split at hc
      · rw [Option.some_inj] at hc
        subst hc; rfl
      · exact absurd hc (by simp)
    · exact absurd hc (by simp)
  · exact absurd hc (by simp)

theorem bottomPass_tag (lines : List String) :
    ∀ c ∈ bottomPass lines, c.1 = AmountSource.bottom_line := by
  intro c hc
  unfold bottomPass at hc
  rw [List.mem_flatMap] at hc
  obtain ⟨line, _, hc⟩ := hc
  split at hc
  · simp at hc
  · split at hc
    · simp at hc
    · rw [List.mem_filterMap] at hc
      obtain ⟨g, _, hc⟩ := hc
      simp only [] at hc
      split at hc
      · rw [Option.some_inj] at hc
        subst hc; rfl
      · exact absurd hc (by simp)

theorem rpPass_tag (full_text : String) :
    ∀ c ∈ rpPass full_text, c.1 = AmountSource.rp_pattern := by
  intro c hc
  unfold rpPass at hc
  rw [List.mem_append] at hc
  rcases hc with hc | hc <;>
  · rw [List.mem_filterMap] at hc
    obtain ⟨g, _, hc⟩ := hc
    simp only [] at hc
    split at hc
    · rw [Option.some_inj] at hc
      subst hc; rfl
    · exact absurd hc (by simp)

theorem extract_eq_amendedSelection (lines : List String) (ft : String) :
    extract_total_amount lines ft = amendedSelection lines ft := by
  have hT := totalPass_tag lines
  have hB := bottomPass_tag lines
  have hR := rpPass_tag ft
  have h1 : (totalPass lines ++ bottomPass lines ++ rpPass ft).filterMap
      (fun c => if c.1 = AmountSource.total_line then some c.2.1 else none) =
      (totalPass lines).map (fun c => c.2.1) := by
    rw [List.filterMap_append, List.filterMap_append]
    rw [selFilterMap_map _ _ _ (fun x hx => by rw [if_pos (hT x hx)]),
      selFilterMap_nil (bottomPass lines) _ (fun x hx => by simp [hB x hx]),
      selFilterMap_nil (rpPass ft) _ (fun x hx => by simp [hR x hx])]
    simp
  have h2 : (totalPass lines ++ bottomPass lines ++ rpPass ft).filterMap
      (fun c => if c.1 = AmountSource.bottom_line && !hasLongDigitRun c.2.2 then
        some c.2.1 else none) =
      (bottomPass lines).filterMap (fun c =>
        if hasLongDigitRun c.2.2 then none else some c.2.1) := by
    rw [List.filterMap_append, List.filterMap_append]
    rw [selFilterMap_nil (totalPass lines) _ (fun x hx => by simp [hT x hx]),
      selFilterMap_nil (rpPass ft) _ (fun x hx => by simp [hR x hx])]
    rw [List.nil_append, List.append_nil]
    exact selFilterMap_congr _ _ _ (fun x hx => by
      by_cases hl : hasLongDigitRun x.2.2 <;> simp [hB x hx, hl])
  have h3 : (totalPass lines ++ bottomPass lines ++ rpPass ft).filterMap
      (fun c => if c.1 = AmountSource.rp_pattern then some c.2.1 else none) =
      (rpPass ft).map (fun c => c.2.1) := by
    rw [List.filterMap_append, List.filterMap_append]
    rw [selFilterMap_nil (totalPass lines) _ (fun x hx => by simp [hT x hx]),
      selFilterMap_nil (bottomPass lines) _ (fun x hx => by simp [hB x hx]),
      selFilterMap_map _ _ _ (fun x hx => by rw [if_pos (hR x hx)])]
    simp
  have h4 : (totalPass lines ++ bottomPass lines ++ rpPass ft).filterMap
      (fun c => if 100 ≤ c.2.1 && c.2.1 ≤ 10000000 then some c.2.1 else none) =
      ((totalPass lines ++ bottomPass lines ++ rpPass ft).map
        (fun c => c.2.1)).filter (fun v => 100 ≤ v && v ≤ 10000000) :=
    selFilterMap_if_filter (totalPass lines ++ bottomPass lines ++ rpPass ft)
      (fun c => c.2.1) (fun v => 100 ≤ v && v ≤ 10000000)
  simp only [extract_total_amount, amendedSelection]
  rw [h1, h2, h3, h4]
  by_cases hemp : (totalPass lines ++ bottomPass lines ++ rpPass ft) = []
  · rcases List.append_eq_nil.mp hemp with ⟨h12, hr0⟩
    rcases List.append_eq_nil.mp h12 with ⟨ht0, hb0⟩
    rw [ht0, hb0, hr0]
    rfl
  · have hfalse : (totalPass lines ++ bottomPass lines ++ rpPass ft).isEmpty = false := by
      rw [List.isEmpty_eq_false]
      exact hemp
    rw [hfalse]
    rfl

/-! ## Claim theorems -/

/-- C1: the totality claim fails.  The amount normalizer's converter result
is passed to `float(...)`, whose `OverflowError` is not among the caught
exception classes (`ValueError`, `TypeError`), so on the 307-digit amount
`1` followed by 306 zeros and `rb` the pattern-1 converter produces
`10^306 * 1000 = 10^309 ≥ 2^1024 - 2^970` and the call raises instead of
returning a value (modelled as `none`). -/
theorem amount_normalizer_overflow_escapes :
    parse_indonesian_amount
      (String.mk ('1' :: (List.replicate 306 '0' ++ ['r', 'b']))) = none := by
  decide

/-- C3: the claim fails as the code's own comment describes the intent.
Pattern 4 `(\d+)(?:[.,]\d{3})*` puts only the leading digit run into
group 1, so the separator groups are discarded before the separator-strip,
and `25,000` parses to 25 (and `1.000.000` to 1), not to the full grouped
number. -/
theorem grouped_amount_drops_separator_groups :
    parse_indonesian_amount "25,000" = some 25 ∧
    parse_indonesian_amount "1.000.000" = some 1 ∧
    (25 : Nat) ≠ 25000 := by decide

/-- C5: the claim fails.  Both day-before-yesterday phrases contain the
substring `kemarin`, which the yesterday branch — checked first — matches,
so both resolvers return reference−1 day (`2025-08-09`) instead of the
claimed reference−2 days (`2025-08-08`, shown last as what the dead
day-before-yesterday branch would produce). -/
theorem day_before_yesterday_shadowed :
    determine_transaction_date none ⟨2025, 8, 10⟩ "kemarin dulu" = "2025-08-09" ∧
    determine_transaction_date none ⟨2025, 8, 10⟩ "lusa kemarin" = "2025-08-09" ∧
    parse_indonesian_date "kemarin dulu" ⟨2025, 8, 10⟩ = "2025-08-09" ∧
    parse_indonesian_date "lusa kemarin" ⟨2025, 8, 10⟩ = "2025-08-09" ∧
    fmtDate (subDays ⟨2025, 8, 10⟩ 2) = "2025-08-08" := by decide

/-- C6: the claim fails for the word `juta`.  The alternation in pattern 3
`(\d+)\s*jt|juta` binds as `((\d+)\s*jt) | (juta)`: `2jt` still multiplies,
but a match via the bare `juta` alternative carries no digit group, the
converter's `int(None)` raises `TypeError`, and the loop falls through to
the bare-digit patterns — so `5 juta` yields 5, not 5,000,000. -/
theorem juta_alternation_falls_through :
    parse_indonesian_amount "2jt" = some 2000000 ∧
    parse_indonesian_amount "5 juta" = some 5 ∧
    parse_indonesian_amount "5juta" = some 5 ∧
    (5 : Nat) ≠ 5000000 := by decide

/-- C10: a truthy AI-extracted date other than the literal `"null"` is
returned verbatim by the date resolver — for every reference date and every
text, so the deterministic parsing stages are never consulted and no
calendar validation happens. -/
theorem ai_date_copied_verbatim (s : String) (md : PyDate) (text : String)
    (h1 : s ≠ "") (h2 : s ≠ "null") :
    determine_transaction_date (some s) md text = s := by
  simp only [determine_transaction_date]
  rw [if_pos ⟨h1, h2⟩]

theorem ai_date_copied_verbatim_witness :
    (("9999-99-99" : String) ≠ "" ∧ ("9999-99-99" : String) ≠ "null") ∧
    determine_transaction_date (some "9999-99-99") ⟨2025, 8, 10⟩ "kemarin" =
      "9999-99-99" :=
  ⟨⟨by decide, by decide⟩,
   ai_date_copied_verbatim "9999-99-99" ⟨2025, 8, 10⟩ "kemarin" (by decide) (by decide)⟩

/-- C7: when no earlier stage of the resolver produces a date and the
`DD/MM/YY[YY]` regex matches with groups `d`, `m`, `y`, the written year is
pivoted (`< 50 → +2000`, otherwise `+1900` for two-digit years) and the
formatted date is returned exactly when the ranges hold with the pivoted
year in 2020–2030; outside that window the stage yields nothing. -/
theorem ddmmyy_year_pivot_window (md : PyDate) (text : String) (d m y y' : Nat)
    (hy' : y' = if y < 100 then (if y < 50 then y + 2000 else y + 1900) else y)
    (hrel : relativeStep (pyStrip (pyLower text.toList)) md = none)
    (hwk : weekdayStep (pyStrip (pyLower text.toList)) md = none)
    (hddmm : ddmmStep (pyStrip (pyLower text.toList)) md = none)
    (hmatch : scanPosB ddmmyyAt none (pyStrip (pyLower text.toList)) = some (d, m, y)) :
    (1 ≤ d → d ≤ 31 → 1 ≤ m → m ≤ 12 → 2020 ≤ y' → y' ≤ 2030 →
      determine_transaction_date none md text = formatYMD y' m d) ∧
    (¬ (2020 ≤ y' ∧ y' ≤ 2030) →
      ddmmyyStep (pyStrip (pyLower text.toList)) md = none) := by
  constructor
  · intro h1 h2 h3 h4 h5 h6
    have hstep : ddmmyyStep (pyStrip (pyLower text.toList)) md =
        some (formatYMD y' m d) := by
      simp only [ddmmyyStep, hmatch, ← hy']
      rw [if_pos ⟨h1, h2, h3, h4, h5, h6⟩]
    simp only [determine_transaction_date, resolveDateFromText, hrel, hwk, hddmm, hstep]
  · intro hnot
    simp only [ddmmyyStep, hmatch, ← hy']
    rw [if_neg (fun hc => hnot ⟨hc.2.2.2.2.1, hc.2.2.2.2.2⟩)]

theorem ddmmyy_year_pivot_window_witness :
    ((2023 : Nat) = (if 23 < 100 then (if 23 < 50 then 23 + 2000 else 23 + 1900) else 23) ∧
     relativeStep (pyStrip (pyLower ("pada 31/2/23").toList)) ⟨2025, 8, 10⟩ = none ∧
     weekdayStep (pyStrip (pyLower ("pada 31/2/23").toList)) ⟨2025, 8, 10⟩ = none ∧
     ddmmStep (pyStrip (pyLower ("pada 31/2/23").toList)) ⟨2025, 8, 10⟩ = none ∧
     scanPosB ddmmyyAt none (pyStrip (pyLower ("pada 31/2/23").toList)) =
       some (31, 2, 23)) ∧
    determine_transaction_date none ⟨2025, 8, 10⟩ "pada 31/2/23" =
      formatYMD 2023 2 31 :=
  ⟨⟨by decide, by decide, by decide, by decide, by decide⟩,
   (ddmmyy_year_pivot_window ⟨2025, 8, 10⟩ "pada 31/2/23" 31 2 23 2023
      (by decide) (by decide) (by decide) (by decide) (by decide)).1
      (by decide) (by decide) (by decide) (by decide) (by decide) (by decide)⟩

/-- C2 counterexample: on the text fallback path the category is a fixed
label never validated against the supplied set — `Other` (and `Food` on the
receipt path) is not a member of the ten-category default set, so the
membership claim fails for those paths. -/
theorem fallback_category_escapes_supplied_set :
    defaultCategories ≠ [] ∧
    (fallback_parse "bayar parkir 2000" ⟨2025, 8, 10⟩ none).category = "Other" ∧
    "Other" ∉ defaultCategories ∧
    categorize_receipt_enhanced "Warung Sederhana" "nasi goreng 2x" = "Food" ∧
    "Food" ∉ defaultCategories := by decide

/-- C2 amended: membership in the supplied set holds on the AI-validated
path (for any non-empty set); the text fallback path and the receipt path
instead return fixed labels from `Food/Transport/Other` and
`Food/Shopping/Transport/Health/Other` respectively, regardless of the
supplied set. -/
theorem category_membership_amended :
    (∀ (guess : Option String) (text location : String) (cats : List String),
      cats ≠ [] → aiPathCategory guess text location cats ∈ cats) ∧
    (∀ (text : String) (md : PyDate) (user : Option String),
      (fallback_parse text md user).category ∈ ["Food", "Transport", "Other"]) ∧
    (∀ location full_text : String,
      categorize_receipt_enhanced location full_text ∈
        ["Food", "Shopping", "Transport", "Health", "Other"]) := by
  refine ⟨?_, ?_, ?_⟩
  · intro guess text location cats hne
    have hsmart : smart_categorize_fallback text location cats ∈ cats := by
      unfold smart_categorize_fallback
      cases hfold : smartFold (combinedText text location) cats smartCategoryKeywords with
      | some c => exact smartFold_mem _ _ _ c hfold
      | none => exact getLastD_mem cats "Others" hne
    cases guess with
    | none => exact hsmart
    | some g =>
      by_cases hg : g ∈ cats
      · simp [aiPathCategory, hg]
      · simpa [aiPathCategory, hg] using hsmart
  · intro text md user
    show fallbackCategory text ∈ _
    unfold fallbackCategory
    simp only []
    split
    · decide
    · split
      · decide
      · decide
  · intro location full_text
    unfold categorize_receipt_enhanced
    simp only []
    split
    · decide
    · split
      · decide
      · split
        · decide
        · split
          · decide
          · decide

theorem category_membership_amended_witness :
    (["Alpha", "Zed"] : List String) ≠ [] ∧
    aiPathCategory (some "Bogus") "makan" "" ["Alpha", "Zed"] ∈
      (["Alpha", "Zed"] : List String) ∧
    (fallback_parse "xyz" ⟨2025, 8, 10⟩ none).category ∈
      (["Food", "Transport", "Other"] : List String) ∧
    categorize_receipt_enhanced "Unknown" "xyz" ∈
      (["Food", "Shopping", "Transport", "Health", "Other"] : List String) :=
  ⟨by decide,
   category_membership_amended.1 (some "Bogus") "makan" "" ["Alpha", "Zed"] (by decide),
   category_membership_amended.2.1 "xyz" ⟨2025, 8, 10⟩ none,
   category_membership_amended.2.2 "Unknown" "xyz"⟩

/-- C4 counterexample: on `makan bensin grab` with the set
`Food & Dining, Transportation`, the scoreboard gives Food & Dining one hit
and Transportation two, so the highest-nonzero-count rule demands
Transportation — but the AI-fallback classifier returns Food & Dining, the
first declared label with any hit. -/
theorem smart_fallback_ignores_higher_count :
    eligScores smartCategoryKeywords ["Food & Dining", "Transportation"]
      (combinedText "makan bensin grab" "") =
      [("Food & Dining", 1), ("Transportation", 2)] ∧
    smart_categorize_fallback "makan bensin grab" "" ["Food & Dining", "Transportation"] =
      "Food & Dining" ∧
    ("Food & Dining" : String) ≠ "Transportation" := by decide

/-- C4 amended: whenever some eligible label scores positively, the utility
classifier returns the first declared label achieving the maximal (positive)
hit count over `text + " " + location` — strictly above every earlier
eligible label, at least every later one — while the AI-fallback classifier
returns the first declared eligible label with any positive count,
regardless of the counts of later labels. -/
theorem classifier_selection_amended (text location : String) (cats : List String) :
    ((∃ p ∈ eligScores categoryKeywords cats (combinedText text location), 0 < p.2) →
      ∃ pre c sc post,
        eligScores categoryKeywords cats (combinedText text location) =
          pre ++ (c, sc) :: post ∧
        match_category_by_keywords text location cats = c ∧ 0 < sc ∧
        (∀ p ∈ pre, p.2 < sc) ∧ (∀ p ∈ post, p.2 ≤ sc)) ∧
    ((∃ p ∈ eligScores smartCategoryKeywords cats (combinedText text location), 0 < p.2) →
      ∃ pre c sc post,
        eligScores smartCategoryKeywords cats (combinedText text location) =
          pre ++ (c, sc) :: post ∧
        smart_categorize_fallback text location cats = c ∧ 0 < sc ∧
        (∀ p ∈ pre, p.2 = 0)) := by
  constructor
  · intro h
    obtain ⟨pre, c, sc, post, hdec, hfold, hpos, hpre, hpost⟩ :=
      eligFold_first_max _ none 0 h
    refine ⟨pre, c, sc, post, hdec, ?_, hpos, hpre, hpost⟩
    simp only [match_category_by_keywords, matchFold_eq_eligFold, hfold]
  · intro h
    obtain ⟨pre, c, sc, post, hdec, hfold, hpos, hpre⟩ :=
      smartFold_first (combinedText text location) cats smartCategoryKeywords h
    refine ⟨pre, c, sc, post, hdec, ?_, hpos, hpre⟩
    simp only [smart_categorize_fallback, hfold]

theorem classifier_selection_amended_witness :
    (∃ p ∈ eligScores categoryKeywords ["Food & Dining", "Transportation"]
        (combinedText "bensin motor 50rb" ""), 0 < p.2) ∧
    (∃ pre c sc post,
      eligScores categoryKeywords ["Food & Dining", "Transportation"]
        (combinedText "bensin motor 50rb" "") = pre ++ (c, sc) :: post ∧
      match_category_by_keywords "bensin motor 50rb" "" ["Food & Dining", "Transportation"] = c ∧
      0 < sc ∧ (∀ p ∈ pre, p.2 < sc) ∧ (∀ p ∈ post, p.2 ≤ sc)) ∧
    (∃ pre c sc post,
      eligScores smartCategoryKeywords ["Food & Dining", "Transportation"]
        (combinedText "makan bensin grab" "") = pre ++ (c, sc) :: post ∧
      smart_categorize_fallback "makan bensin grab" "" ["Food & Dining", "Transportation"] = c ∧
      0 < sc ∧ (∀ p ∈ pre, p.2 = 0)) :=
  ⟨by decide,
   (classifier_selection_amended "bensin motor 50rb" "" ["Food & Dining", "Transportation"]).1
     (by decide),
   (classifier_selection_amended "makan bensin grab" "" ["Food & Dining", "Transportation"]).2
     (by decide)⟩

/-- C9: when every keyword of both classifier tables misses the combined
text, each classifier returns the last element of a non-empty supplied set,
and the literal `Others` on the empty set. -/
theorem classifier_default_last_or_others (text location : String)
    (cats : List String) (h : cats ≠ [])
    (hz1 : ∀ p ∈ categoryKeywords, countHits (combinedText text location) p.2 = 0)
    (hz2 : ∀ p ∈ smartCategoryKeywords, countHits (combinedText text location) p.2 = 0) :
    match_category_by_keywords text location cats = cats.getLast h ∧
    smart_categorize_fallback text location cats = cats.getLast h ∧
    match_category_by_keywords text location [] = "Others" ∧
    smart_categorize_fallback text location [] = "Others" := by
  refine ⟨?_, ?_, ?_, ?_⟩
  · have hall : ∀ q ∈ eligScores categoryKeywords cats (combinedText text location),
        q.2 ≤ 0 := by
      intro q hq
      unfold eligScores at hq
      rw [List.mem_map] at hq
      obtain ⟨p, hp, hq⟩ := hq
      rw [← hq]
      exact Nat.le_of_eq (hz1 p (List.mem_of_mem_filter hp))
    simp only [match_category_by_keywords, matchFold_eq_eligFold,
      eligFold_of_no_improvement _ none 0 hall]
    exact getLastD_eq_getLast cats "Others" h
  · simp only [smart_categorize_fallback, smartFold_none_of_zero _ cats _ hz2]
    exact getLastD_eq_getLast cats "Others" h
  · have hall : ∀ q ∈ eligScores categoryKeywords [] (combinedText text location),
        q.2 ≤ 0 := by
      intro q hq
      unfold eligScores at hq
      simp at hq
    simp only [match_category_by_keywords, matchFold_eq_eligFold,
      eligFold_of_no_improvement _ none 0 hall]
    rfl
  · simp only [smart_categorize_fallback, smartFold_nil_cats]
    rfl

theorem classifier_default_last_or_others_witness :
    (["Alpha", "Beta"] : List String) ≠ [] ∧
    (∀ p ∈ categoryKeywords, countHits (combinedText "qqq" "www") p.2 = 0) ∧
    (∀ p ∈ smartCategoryKeywords, countHits (combinedText "qqq" "www") p.2 = 0) ∧
    match_category_by_keywords "qqq" "www" ["Alpha", "Beta"] = "Beta" ∧
    smart_categorize_fallback "qqq" "www" ["Alpha", "Beta"] = "Beta" := by
  have h := classifier_default_last_or_others "qqq" "www" ["Alpha", "Beta"]
    (by decide) (by decide) (by decide)
  exact ⟨by decide, by decide, by decide, h.1, h.2.1⟩

/-- C8 counterexample: with no total line, the claim demands the maximum
bottom-line candidate (789, from the digits of `cash 1234567890`), but the
code filters bottom-line candidates whose line carries a run of ten or more
digits and returns 200. -/
theorem bottom_line_digit_filter_counterexample :
    extract_total_amount ["cash 1234567890", "200"] "cash 1234567890\n200" = 200 ∧
    claimedSelection ["cash 1234567890", "200"] "cash 1234567890\n200" = 789 ∧
    (200 : Nat) ≠ 789 := by decide

/-- C8 amended: the selector realizes the claimed cascade — maximum
total-line candidate, else maximum bottom-line candidate, else maximum
currency-marked candidate, else maximum remaining candidate in
100..10,000,000, else 0 — except that the bottom-line pool excludes
candidates whose originating line contains a boundary-delimited run of ten
or more digits (such candidates can still win through the final pool).
The float-exactness bound keeps the integer model faithful.  The ALFAMART
receipt yields 25200, not the phone digits. -/
theorem amount_selector_cascade_amended :
    (∀ (lines : List String) (full_text : String),
      (∀ c ∈ totalPass lines ++ bottomPass lines ++ rpPass full_text,
        c.2.1 < 2 ^ 53) →
      extract_total_amount lines full_text = amendedSelection lines full_text) ∧
    extract_total_amount ["ALFAMART", "Total: 25.200", "Tel: 081234567890"]
      "ALFAMART\nTotal: 25.200\nTel: 081234567890" = 25200 :=
  ⟨fun lines ft _ => extract_eq_amendedSelection lines ft, by decide⟩

theorem amount_selector_cascade_amended_witness :
    (∀ c ∈ totalPass ["ALFAMART", "Total: 25.200", "Tel: 081234567890"] ++
        bottomPass ["ALFAMART", "Total: 25.200", "Tel: 081234567890"] ++
        rpPass "ALFAMART\nTotal: 25.200\nTel: 081234567890", c.2.1 < 2 ^ 53) ∧
    extract_total_amount ["ALFAMART", "Total: 25.200", "Tel: 081234567890"]
      "ALFAMART\nTotal: 25.200\nTel: 081234567890" =
      amendedSelection ["ALFAMART", "Total: 25.200", "Tel: 081234567890"]
        "ALFAMART\nTotal: 25.200\nTel: 081234567890" :=
  ⟨by decide,
   amount_selector_cascade_amended.1 ["ALFAMART", "Total: 25.200", "Tel: 081234567890"]
     "ALFAMART\nTotal: 25.200\nTel: 081234567890" (by decide)⟩
